import Mathlib

/-!
Verification of the real-estate RAG repository's query orchestration and
retrieval core.  The definitions below are shallow embeddings of the source
files: `documentSemanticSearch.js`, `similaritySearch.js`, `document.sql`,
`embedding.js`, `documentEmbedding.js`, `splitDocument.js` (via langchain's
`RecursiveCharacterTextSplitter`), the Express handler in `server.js`, and the
Python `query_preprocessor.py` / `main.py` code quoted verbatim in the
repository's fix documentation.
-/

namespace RealEstateRAG

/-! ### String helpers

Python's `in` operator on strings and JavaScript's `String.includes` are
contiguous-substring tests; we model them over character lists. -/

/-- `needle` occurs as a contiguous substring of the character list. -/
def hasSub (needle : List Char) : List Char → Bool
  | [] => needle.isEmpty
  | c :: rest => needle.isPrefixOf (c :: rest) || hasSub needle rest

/-- Python `needle in hay` / JS `hay.includes(needle)`. -/
def strContains (hay needle : String) : Bool :=
  hasSub needle.toList hay.toList

/-- Python `str.lower()` / JS `String.toLowerCase`, character by character. -/
def jsToLower (s : String) : String :=
  String.mk (s.toList.map Char.toLower)

/-- JS `String.prototype.trim`: strip leading and trailing whitespace. -/
def jsTrim (s : String) : String :=
  String.mk
    (((s.toList.dropWhile Char.isWhitespace).reverse.dropWhile Char.isWhitespace).reverse)

/-- Worker for `jsSplitOn`: scan left to right for the leftmost occurrence of
the (non-empty) separator, cutting it out and starting a new field.  `fuel`
bounds the recursion by the length of the rest of the text; every step
consumes at least one character, so the fuel is never exhausted. -/
def jsSplitOnGo (sep : List Char) : Nat → List Char → List Char → List (List Char)
  | _, [], acc => [acc.reverse]
  | 0, l, acc => [acc.reverse ++ l]
  | fuel + 1, c :: rest, acc =>
    if sep.isPrefixOf (c :: rest) then
      acc.reverse :: jsSplitOnGo sep fuel (List.drop sep.length (c :: rest)) []
    else jsSplitOnGo sep fuel rest (c :: acc)

/-- JS `text.split(separator)` for a non-empty separator (leftmost,
non-overlapping matches). -/
def jsSplitOn (text separator : String) : List String :=
  if separator.toList.isEmpty then [text]
  else (jsSplitOnGo separator.toList text.toList.length text.toList []).map String.mk

/-! ### Query Preprocessor: `detect_detail_level`

From `query_preprocessor.py` as quoted in `BUDGET_QUERY_FIX` /
`CHANGES_SUMMARY.md` / `VISUAL_COMPARISON.md`:

    @classmethod
    def detect_detail_level(cls, query: str) -> str:
        query_lower = query.lower()
        if any(word in query_lower for word in
               ["budget", "lakh", "crore", "price", "cost", "afford", "can i buy"]):
            return "detailed"
        # ... rest of the logic ...

The documentation elides the rest of the method, so the remaining rules are
abstracted as an arbitrary function `rest`. -/

def budgetKeywords : List String :=
  ["budget", "lakh", "crore", "price", "cost", "afford", "can i buy"]

/-- Python `any(word in query_lower for word in words)`. -/
def containsAnyKeyword (query_lower : String) (words : List String) : Bool :=
  words.any (fun w => strContains query_lower w)

/-- `detect_detail_level` with the elided tail of the method abstracted as
`rest`; the budget check is the first rule and returns immediately. -/
def detect_detail_level (rest : String → String) (query : String) : String :=
  let query_lower := jsToLower query
  if containsAnyKeyword query_lower budgetKeywords then "detailed"
  else rest query

/-! ### Retrieval Engine: post-search location filter and top-k

From `main.py` as quoted in `LOCATION_FILTERING_FIX.md` / `CHANGES_SUMMARY.md`:

    results = await vector_store.search(query_embedding=query_embedding,
                                        top_k=max(request.top_k, 10))
    extracted_locations = query_analysis.get("locations", [])
    if extracted_locations and len(extracted_locations) > 0:
        location_lower = [loc.lower() for loc in extracted_locations]
        filtered_results = []
        for result in results:
            result_text = result.get('text', '').lower()
            if any(loc in result_text for loc in location_lower):
                filtered_results.append(result)
        if filtered_results:
            results = filtered_results
-/

/-- Number of candidates requested from the vector store before filtering:
`top_k=max(request.top_k, 10)`. -/
def requestedCandidateCount (request_top_k : Nat) : Nat :=
  max request_top_k 10

/-- One candidate returned by the vector-store search, as consumed by the
location filter (`result.get('text', '')`). -/
structure SearchResult where
  text : String
deriving DecidableEq, Repr

/-- Does the candidate's lowercased text contain some requested location
(lowercased)?  Python: `any(loc in result_text for loc in location_lower)`. -/
def matchesSomeLocation (extracted_locations : List String) (r : SearchResult) : Bool :=
  (extracted_locations.map jsToLower).any
    (fun loc => strContains (jsToLower r.text) loc)

/-- Post-search location filtering from `main.py`: when locations were
extracted, keep the candidates whose text mentions one of them, but fall back
to the unfiltered list when no candidate matches. -/
def filterByLocation (extracted_locations : List String)
    (results : List SearchResult) : List SearchResult :=
  if extracted_locations.length > 0 then
    let filtered_results := results.filter (matchesSomeLocation extracted_locations)
    if filtered_results.isEmpty then results else filtered_results
  else results

/-! ### Vector Store: `match_real_estate` (document.sql)

    create or replace function match_real_estate (query_embedding vector(1536),
                                                  match_threshold float,
                                                  match_count int) ... as $$
      select real_estate.id, real_estate.content,
             1 - (real_estate.embedding <=> query_embedding) as similarity
      from real_estate
      where 1 - (real_estate.embedding <=> query_embedding) > match_threshold
      order by similarity desc
      limit match_count;
    $$;

Each table row carries an id and a content chunk; the cosine-distance
expression `1 - (embedding <=> query_embedding)` is abstracted as a scoring
function `sim` supplied per query vector. -/

/-- One row of the `real_estate` table (the embedding column is consumed only
through the similarity score `sim`). -/
structure RealEstateRow where
  id : Nat
  content : String
deriving DecidableEq, Repr

/-- One row returned by `match_real_estate`. -/
structure MatchRow where
  id : Nat
  content : String
  similarity : ℚ
deriving DecidableEq, Repr

/-- Descending-similarity order used by `order by similarity desc`. -/
def simGE (a b : MatchRow) : Prop :=
  b.similarity ≤ a.similarity

instance : DecidableRel simGE :=
  fun a b => inferInstanceAs (Decidable (b.similarity ≤ a.similarity))

instance : IsTotal MatchRow simGE :=
  ⟨fun a b => le_total b.similarity a.similarity⟩

instance : IsTrans MatchRow simGE :=
  ⟨fun _ _ _ hab hbc => le_trans hbc hab⟩

/-- `match_real_estate`: score every row, keep the rows whose similarity is
strictly above the threshold, order by similarity descending, and truncate to
`match_count`. -/
def match_real_estate (sim : RealEstateRow → ℚ) (table : List RealEstateRow)
    (match_threshold : ℚ) (match_count : Nat) : List MatchRow :=
  ((((table.map (fun r => MatchRow.mk r.id r.content (sim r)))).filter
      (fun m => match_threshold < m.similarity)).insertionSort simGE).take match_count

/-- `matchEmbedding` from `similaritySearch.js`:

    export async function matchEmbedding(embedding, threshold = 0.75, matchCount = 2) {
      const { data, error } = await supabase.rpc("match_real_estate", {
        query_embedding: embedding, match_threshold: threshold, match_count: matchCount,
      });
      if (error) { console.error("Error matching embedding:", error); return []; }
      return data;
    }

It forwards the query vector, threshold and count to the `match_real_estate`
SQL function through a Supabase RPC; when the RPC reports an error it logs
and returns the empty array, otherwise it returns the rows the database
produced.  `rpcError` is the `error` field of the RPC response. -/
def matchEmbedding (rpcError : Option String) (sim : RealEstateRow → ℚ)
    (table : List RealEstateRow) (match_threshold : ℚ) (match_count : Nat) :
    List MatchRow :=
  match rpcError with
  | some _ => []
  | none => match_real_estate sim table match_threshold match_count

/-! ### Chat pipeline: `documentSemanticSearch.js` and the Express handler

    const chatMessages = [systemPrompt];
    async function getChatCompletions(text, query) {
      chatMessages.push({ role: "user", content: `Content: ${text}. Question: ${query}` });
      ... response = await openai.chat.completions.create({..., messages: chatMessages});
      chatMessages.push(response.choices[0].message);
      return response.choices[0].message; ...
    }
    export const documentSemanticSearch = async (query) => {
      try {
        const queryEmbedding = await generateEmbedding(query);
        const queryVector = queryEmbedding.data[0].embedding;
        const matches = await matchEmbedding(queryVector, 0.75, 5);
        const contents = matches.map((match) => match.content).join("\n---\n");
        const reply = await getChatCompletions(contents, query);
        return reply;
      } catch (error) { console.error(...); }   // falls through: returns undefined
    };

The module-level `chatMessages` array is threaded explicitly as a state value;
the LLM completion call is abstracted as a function from the message list to
the assistant's text. -/

/-- One OpenAI chat message. -/
structure ChatMsg where
  role : String
  content : String
deriving DecidableEq, Repr

/-- The module-level system prompt of `documentSemanticSearch.js`. -/
def systemPrompt : ChatMsg :=
  ⟨"system",
   "You are a helpful Real Estate Assistant mostly looking for properties in Pune City. It is a company invloved in Real Estate industry. If any one ask you any question other than Real Estate, you will reply with 'Let's stay on track'. When providing information, ensure it is accurate and relevant to real estate. Also make sure to add appropriate links to their products for more information. If you are unsure about an answer, it's better to admit it than to provide incorrect information. Also, keep your answers concise and to the point. Currently you only have information about properties in Pune city."⟩

/-- Initial value of the module-level `chatMessages` array. -/
def initialChatMessages : List ChatMsg :=
  [systemPrompt]

/-- The user message pushed by `getChatCompletions`:
`Content: ${text}. Question: ${query}`. -/
def userMsg (text query : String) : ChatMsg :=
  ⟨"user", "Content: " ++ text ++ ". Question: " ++ query⟩

/-- `getChatCompletions(text, query)`: pushes the user message onto the
module-level array, sends the whole accumulated array to the LLM, pushes the
assistant reply, and returns it.  The returned pair is (reply, new value of
`chatMessages`). -/
def getChatCompletions (llm : List ChatMsg → String) (chatMessages : List ChatMsg)
    (text query : String) : ChatMsg × List ChatMsg :=
  let sent := chatMessages ++ [userMsg text query]
  let reply : ChatMsg := ⟨"assistant", llm sent⟩
  (reply, sent ++ [reply])

/-- The message list actually sent to the LLM by `getChatCompletions`. -/
def sentMessages (chatMessages : List ChatMsg) (text query : String) : List ChatMsg :=
  chatMessages ++ [userMsg text query]

/-- `matches.map((match) => match.content).join("\n---\n")`. -/
def matchContents (ms : List MatchRow) : String :=
  String.intercalate "\n---\n" (ms.map MatchRow.content)

/-- `documentSemanticSearch(query)`.  The embedding call may fail
(`embedResult = .error e`); the surrounding try/catch then logs and lets the
function return `undefined`, modelled as `none`, with `chatMessages`
untouched.  On success the retrieval runs through `matchEmbedding` (whose
Supabase RPC outcome is `rpcError`) with threshold `0.75` and count `5`, and
the reply message is returned. -/
def documentSemanticSearch (embedResult : Except String (RealEstateRow → ℚ))
    (rpcError : Option String) (table : List RealEstateRow)
    (llm : List ChatMsg → String) (chatMessages : List ChatMsg) (query : String) :
    Option ChatMsg × List ChatMsg :=
  match embedResult with
  | .error _ => (none, chatMessages)
  | .ok sim =>
    let ms := matchEmbedding rpcError sim table (3 / 4 : ℚ) 5
    let contents := matchContents ms
    let (reply, chatMessages2) := getChatCompletions llm chatMessages contents query
    (some reply, chatMessages2)

/-- HTTP response of the Express `/api/search` handler. -/
inductive ApiResponse where
  | ok (content : String)
  | serverError (error : String)
deriving DecidableEq, Repr

/-- The Express handler body:
`res.json({ content: response.content })` succeeds when the search returned a
message; when the search completed with `undefined`, reading
`response.content` throws and the catch block answers
`res.status(500).json({ error: "Something went wrong" })`. -/
def apiSearch (searchResult : Option ChatMsg) : ApiResponse :=
  match searchResult with
  | some r => .ok r.content
  | none => .serverError "Something went wrong"

/-! ### Ingestion: `splitDocument.js` via `RecursiveCharacterTextSplitter`

`splitContent` constructs `new RecursiveCharacterTextSplitter({chunkSize: 300,
chunkOverlap: 30})` and calls `createDocuments([text])`, whose chunk texts are
`splitText(text)`.  The langchain JS splitter (with the default separators
`["\n\n", "\n", " ", ""]` and `keepSeparator: false`) is embedded below:
`splitOnSeparator`, `joinDocs`, `mergeSplits` and the recursive `_splitText`
are translated clause by clause. -/

/-- `splitOnSeparator(text, separator)` with `keepSeparator: false`:
`text.split(separator)` (or `text.split("")` into single characters) with the
empty strings filtered out. -/
def splitOnSeparator (text separator : String) : List String :=
  let splits :=
    if separator = "" then text.toList.map (fun c => String.mk [c])
    else jsSplitOn text separator
  splits.filter (fun s => s ≠ "")

/-- `joinDocs(docs, separator)`: join with the separator, trim, and return
`null` (here `none`) when the result is empty. -/
def joinDocs (docs : List String) (separator : String) : Option String :=
  let text := jsTrim (String.intercalate separator docs)
  if text = "" then none else some text

/-- The inner `while` of `mergeSplits`: keep shifting `currentDoc[0]` while
`total > chunkOverlap || (total + _len + currentDoc.length * separator.length
> chunkSize && total > 0)`, subtracting the shifted element's length from
`total`. -/
def shrinkDoc (chunkSize chunkOverlap _len sepLen : Nat) :
    List String → Nat → List String × Nat
  | [], total => ([], total)
  | d :: ds, total =>
    if total > chunkOverlap ∨
        (total + _len + (d :: ds).length * sepLen > chunkSize ∧ total > 0) then
      shrinkDoc chunkSize chunkOverlap _len sepLen ds (total - d.length)
    else (d :: ds, total)

/-- The main loop of `mergeSplits(splits, separator)`: accumulate splits into
`currentDoc` (with `total` the sum of their lengths); when the next split
would overflow `chunkSize`, emit the joined `currentDoc` and shrink it down to
the overlap before continuing; finally emit the joined remainder. -/
def mergeLoop (chunkSize chunkOverlap : Nat) (separator : String) :
    List String → List String → Nat → List String
  | [], currentDoc, _total =>
    (joinDocs currentDoc separator).toList
  | d :: ds, currentDoc, total =>
    let _len := d.length
    if total + _len + currentDoc.length * separator.length > chunkSize ∧
        currentDoc.length > 0 then
      let pushed := (joinDocs currentDoc separator).toList
      let shrunk := shrinkDoc chunkSize chunkOverlap _len separator.length currentDoc total
      pushed ++ mergeLoop chunkSize chunkOverlap separator ds
        (shrunk.1 ++ [d]) (shrunk.2 + _len)
    else
      mergeLoop chunkSize chunkOverlap separator ds (currentDoc ++ [d]) (total + _len)

/-- `mergeSplits(splits, separator)`. -/
def mergeSplits (chunkSize chunkOverlap : Nat) (splits : List String)
    (separator : String) : List String :=
  mergeLoop chunkSize chunkOverlap separator splits [] 0

/-- The per-split loop body of `_splitText`: splits shorter than `chunkSize`
are collected into `goodSplits` runs and merged; a too-long split flushes the
pending run and contributes its recursively produced chunks (already computed
in the `String ⊕ List String` items). -/
def assembleChunks (chunkSize chunkOverlap : Nat) (separator : String) :
    List (String ⊕ List String) → List String → List String
  | [], goodSplits =>
    if goodSplits.isEmpty then [] else mergeSplits chunkSize chunkOverlap goodSplits separator
  | .inl s :: items, goodSplits =>
    assembleChunks chunkSize chunkOverlap separator items (goodSplits ++ [s])
  | .inr chunks :: items, goodSplits =>
    (if goodSplits.isEmpty then [] else mergeSplits chunkSize chunkOverlap goodSplits separator)
      ++ chunks ++ assembleChunks chunkSize chunkOverlap separator items []

/-- `_splitText(text, separators)`: pick the first separator that is `""` or
occurs in the text; split on it; splits shorter than `chunkSize` are merged
back with the separator, longer ones are split again with the remaining
separators.  (With the default separator list, `""` is always last, so the
`newSeparators === undefined` branch only ever sees sub-`chunkSize` splits.) -/
def splitTextRec (chunkSize chunkOverlap : Nat) :
    List String → String → List String
  | [], text => [text]
  | s :: rest, text =>
    if s = "" then
      mergeSplits chunkSize chunkOverlap (splitOnSeparator text "") ""
    else if strContains text s then
      assembleChunks chunkSize chunkOverlap s
        ((splitOnSeparator text s).map
          (fun sp =>
            if sp.length < chunkSize then Sum.inl sp
            else Sum.inr (splitTextRec chunkSize chunkOverlap rest sp)))
        []
    else
      splitTextRec chunkSize chunkOverlap rest text

/-- Default separators of `RecursiveCharacterTextSplitter`. -/
def defaultSeparators : List String :=
  ["\n\n", "\n", " ", ""]

/-- `splitText` of a `RecursiveCharacterTextSplitter`. -/
def splitText (chunkSize chunkOverlap : Nat) (text : String) : List String :=
  splitTextRec chunkSize chunkOverlap defaultSeparators text

/-- `splitContent(text)` from `splitDocument.js`: chunk size 300, chunk
overlap 30; the produced documents' page contents. -/
def splitContent (text : String) : List String :=
  splitText 300 30 text

/-! ### Ingestion: `documentEmbedding.js` and `embedding.js`

    const chunks = await splitContent(content);
    const data = await Promise.all(chunks.map(async (chunk) => {
      const embedding = await generateEmbedding(chunk.pageContent);
      return { content: chunk.pageContent, embedding: embedding.data[0].embedding };
    }));
    await storeEmbeddingToSupabase(data);

and `storeEmbeddingToSupabase` performs `supabase.from("real_estate")
.insert(data)` — a plain insert appending the rows to the table. -/

/-- One row handed to the Supabase insert. -/
structure InsertRow where
  content : String
  embedding : List ℚ
deriving DecidableEq, Repr

/-- The rows built from one document's chunks. -/
def ingestData (embed : String → List ℚ) (content : String) : List InsertRow :=
  (splitContent content).map (fun c => ⟨c, embed c⟩)

/-- `storeEmbeddingToSupabase(data)`: `insert` appends the rows to the
`real_estate` table. -/
def storeEmbeddingToSupabase (table : List InsertRow) (data : List InsertRow) :
    List InsertRow :=
  table ++ data

/-- The full ingestion run of `documentEmbedding.js` on one document. -/
def ingestDocument (embed : String → List ℚ) (table : List InsertRow)
    (content : String) : List InsertRow :=
  storeEmbeddingToSupabase table (ingestData embed content)

/-! ### Agent Runtime loop (modelled from the spec) -/

/-- One LLM Service answer: either plain text or a structured tool call. -/
inductive LLMResponse where
  | text (answer : String)
  | toolCall (toolName : String) (arguments : String)
deriving DecidableEq, Repr

/-- Terminal state of one Agent Runtime request. -/
inductive AgentOutcome where
  | done (answer : String)
  | failed
deriving DecidableEq, Repr

/-- Modelled from the spec: the Agent Runtime implementation
(`agents/real_estate_agents.py`) is not among the sources; §4.4 specifies
`Start → AwaitingModel → (ToolRequested → ToolExecuting → AwaitingModel)* →
Done | Failed` with at most `K` tool iterations, exceeding `K` transitioning
to `Failed`.  `respond` gives the LLM Service response to the n-th call;
`itersLeft` counts the remaining permitted tool iterations and `calls` the
LLM calls already made.  The returned pair is (outcome, total LLM calls). -/
def agentLoop (respond : Nat → LLMResponse) :
    Nat → Nat → AgentOutcome × Nat
  | itersLeft, calls =>
    match respond calls with
    | .text answer => (.done answer, calls + 1)
    | .toolCall _ _ =>
      match itersLeft with
      | 0 => (.failed, calls + 1)
      | n + 1 => agentLoop respond n (calls + 1)

/-- Modelled from the spec: one Agent Runtime request with iteration cap `K`
(default 3) starting from the seed LLM call. -/
def runAgent (K : Nat) (respond : Nat → LLMResponse) : AgentOutcome × Nat :=
  agentLoop respond K 0

/-! ### Concrete fixtures used by witnesses and counterexamples -/

/-- String of `n` copies of one character. -/
def repChar (n : Nat) (c : Char) : String :=
  String.mk (List.replicate n c)

/-- A 1200-character document made of four paragraphs (299, 299, 299 and 297
characters) separated by blank lines. -/
def paragraphDoc1200 : String :=
  repChar 299 'a' ++ "\n\n" ++ repChar 299 'b' ++ "\n\n" ++
    repChar 299 'c' ++ "\n\n" ++ repChar 297 'd'

/-- A 1200-character document with no separator characters: printable
non-whitespace ASCII cycling with period 90. -/
def uniformDoc1200 : String :=
  String.mk ((List.range 1200).map (fun i => Char.ofNat (33 + i % 90)))

/-- The substring of `s` of length `len` starting at character `start`. -/
def strSlice (s : String) (start len : Nat) : String :=
  String.mk ((s.toList.drop start).take len)

/-- The five chunks the splitter produces on `uniformDoc1200`: stride 270,
chunk length 300 (the final chunk keeps the remaining 120 characters). -/
def uniformChunks : List String :=
  [strSlice uniformDoc1200 0 300, strSlice uniformDoc1200 270 300,
   strSlice uniformDoc1200 540 300, strSlice uniformDoc1200 810 300,
   strSlice uniformDoc1200 1080 120]

/-- Every pair of consecutive chunks shares an exact 30-character overlap:
the last 30 characters of each chunk equal the first 30 of the next. -/
def consecutiveOverlapsOf30 (chunks : List String) : Bool :=
  (chunks.zip chunks.tail).all
    (fun p => p.1.toList.drop (p.1.length - 30) == p.2.toList.take 30)

/-- Closed form of the splitter's behaviour on a separator-free character
list with chunk size 300 and overlap 30: chunks of 300 characters at stride
270, the last chunk keeping the remainder. -/
def charChunks (l : List Char) : List (List Char) :=
  if _h : l.length ≤ 300 then [l]
  else l.take 300 :: charChunks (l.drop 270)
termination_by l.length
decreasing_by
  simp only [List.length_drop]
  omega

/-- An LLM stub whose answer reveals how many messages it was shown. -/
def lenLLM : List ChatMsg → String :=
  fun msgs => toString msgs.length

/-! ## Theorems -/

/-- C1: for every query whose lowercased text contains a recognized
budget/price/affordability keyword, `detect_detail_level` returns
`"detailed"`, whatever the rest of the rule list (`rest`) would have decided:
the budget rule is evaluated first and returns immediately. -/
theorem c1_budget_query_is_detailed (rest : String → String) (query : String)
    (h : containsAnyKeyword (jsToLower query) budgetKeywords = true) :
    detect_detail_level rest query = "detailed" := by
  simp [detect_detail_level, h]

/-- C1 witness: "My Budget is 50 Lakh" contains a budget keyword and is
classified `"detailed"` even when every other rule would say `"brief"`. -/
theorem c1_budget_query_is_detailed_witness :
    containsAnyKeyword (jsToLower "My Budget is 50 Lakh") budgetKeywords = true ∧
    detect_detail_level (fun _ => "brief") "My Budget is 50 Lakh" = "detailed" :=
  ⟨by decide,
   c1_budget_query_is_detailed (fun _ => "brief") "My Budget is 50 Lakh" (by decide)⟩

/-- C2: with a non-empty extracted-location list, the post-search filter
either returns only candidates whose text mentions a requested location, or,
when no candidate matches, returns the unfiltered list unchanged; it never
returns an empty list unless the unfiltered candidate list was itself empty. -/
theorem c2_location_filter_with_fallback (locs : List String)
    (results : List SearchResult) (h : locs ≠ []) :
    ((∀ r ∈ filterByLocation locs results, matchesSomeLocation locs r = true) ∨
      ((∀ r ∈ results, matchesSomeLocation locs r = false) ∧
        filterByLocation locs results = results)) ∧
    (filterByLocation locs results = [] → results = []) := by
  have hl : 0 < locs.length := List.length_pos.mpr h
  simp only [filterByLocation, gt_iff_lt, hl, if_true]
  by_cases hF : (results.filter (matchesSomeLocation locs)).isEmpty = true
  · rw [if_pos hF]
    have hnil : results.filter (matchesSomeLocation locs) = [] :=
      List.isEmpty_iff.mp hF
    have hall := List.filter_eq_nil_iff.mp hnil
    exact ⟨Or.inr ⟨fun r hr => Bool.not_eq_true _ ▸ Bool.of_not_eq_true (hall r hr), rfl⟩,
      fun he => he⟩
  · rw [if_neg hF]
    refine ⟨Or.inl fun r hr => (List.mem_filter.mp hr).2, fun he => ?_⟩
    exact absurd (by simp [he]) hF

/-- C2 witness: with location "wakad" and a mixed candidate list, applying
the theorem at that input yields the filter guarantee. -/
theorem c2_location_filter_with_fallback_witness :
    ((∀ r ∈ filterByLocation ["wakad"]
        [SearchResult.mk "2 BHK apartment in Wakad near the IT park",
         SearchResult.mk "Villa in Baner with garden"],
        matchesSomeLocation ["wakad"] r = true) ∨
      ((∀ r ∈ [SearchResult.mk "2 BHK apartment in Wakad near the IT park",
          SearchResult.mk "Villa in Baner with garden"],
          matchesSomeLocation ["wakad"] r = false) ∧
        filterByLocation ["wakad"]
          [SearchResult.mk "2 BHK apartment in Wakad near the IT park",
           SearchResult.mk "Villa in Baner with garden"] =
          [SearchResult.mk "2 BHK apartment in Wakad near the IT park",
           SearchResult.mk "Villa in Baner with garden"])) ∧
    (filterByLocation ["wakad"]
        [SearchResult.mk "2 BHK apartment in Wakad near the IT park",
         SearchResult.mk "Villa in Baner with garden"] = [] →
      [SearchResult.mk "2 BHK apartment in Wakad near the IT park",
       SearchResult.mk "Villa in Baner with garden"] = []) :=
  c2_location_filter_with_fallback ["wakad"]
    [SearchResult.mk "2 BHK apartment in Wakad near the IT park",
     SearchResult.mk "Villa in Baner with garden"] (by decide)

/-- C3 counterexample: at requested result count 3 the code requests
`max(3, 10) = 10` candidates, not `max(3, 3 * 2) = 6` as the claim states. -/
theorem c3_counterexample :
    requestedCandidateCount 3 ≠ max 3 (3 * 2) := by
  decide

/-- C3 amended: the Retrieval Engine requests exactly `max(topK, 10)`
candidates from the Vector Store before the location post-filter — at least
the requested count and at least 10, but not `max(topK, topK * 2)`. -/
theorem c3_overfetch_is_max_with_ten (request_top_k : Nat) :
    requestedCandidateCount request_top_k = max request_top_k 10 ∧
    request_top_k ≤ requestedCandidateCount request_top_k ∧
    10 ≤ requestedCandidateCount request_top_k := by
  refine ⟨rfl, ?_, ?_⟩ <;> simp [requestedCandidateCount]

/-- C4: `match_real_estate` returns at most `match_count` rows, sorted in
descending similarity order; the retrieval path hands this list back
unchanged (with `match_count = 5 = topK`), so the final result list is
descending and truncated to `topK`. -/
theorem c4_results_sorted_and_capped (sim : RealEstateRow → ℚ)
    (table : List RealEstateRow) (match_threshold : ℚ) (match_count : Nat) :
    (match_real_estate sim table match_threshold match_count).length ≤ match_count ∧
    List.Sorted simGE (match_real_estate sim table match_threshold match_count) := by
  constructor
  · simp only [match_real_estate]
    exact List.length_take_le match_count
      (((table.map (fun r => MatchRow.mk r.id r.content (sim r))).filter
        (fun m => match_threshold < m.similarity)).insertionSort simGE)
  · have hs := List.sorted_insertionSort simGE
      ((table.map (fun r => MatchRow.mk r.id r.content (sim r))).filter
        (fun m => match_threshold < m.similarity))
    have hsub := List.take_sublist match_count
      (((table.map (fun r => MatchRow.mk r.id r.content (sim r))).filter
        (fun m => match_threshold < m.similarity)).insertionSort simGE)
    exact hs.sublist hsub

/-- C5 counterexample: when the Embedding Service call fails,
`documentSemanticSearch` completes normally with an undefined answer
(`none`) — it does not propagate a retrieval-unavailable error to its
caller. -/
theorem c5_counterexample :
    documentSemanticSearch (Except.error "Embedding Service unavailable") none []
      (fun _ => "") initialChatMessages "2bhk in wakad" =
      (none, initialChatMessages) := rfl

/-- C5 amended: if the Embedding Service call fails, the try/catch inside
`documentSemanticSearch` swallows the error and the function completes
normally with `undefined`; the `/api/search` handler then throws while
reading `.content` of `undefined`, and its own catch converts that into a
generic 500 "Something went wrong" response.  The client therefore receives
an error response, but not from the retrieval path propagating a tagged
retrieval-unavailable error. -/
theorem c5_embed_failure_swallowed_then_500 (e : String) (rpcError : Option String)
    (table : List RealEstateRow) (llm : List ChatMsg → String)
    (chatMessages : List ChatMsg) (query : String) :
    documentSemanticSearch (Except.error e) rpcError table llm chatMessages query =
      (none, chatMessages) ∧
    apiSearch (documentSemanticSearch (Except.error e) rpcError table llm
        chatMessages query).1 =
      ApiResponse.serverError "Something went wrong" :=
  ⟨rfl, rfl⟩

/-- C6 counterexample: ingesting the document "2bhk in wakad" twice stores 2
chunk rows where one ingestion stores 1 — the second ingestion inserts
duplicates instead of replacing the first ingestion's chunks. -/
theorem c6_counterexample :
    (ingestDocument (fun _ => []) (ingestDocument (fun _ => []) [] "2bhk in wakad")
        "2bhk in wakad").length ≠
      (ingestDocument (fun _ => []) [] "2bhk in wakad").length := by
  decide

/-- C6 amended: `storeEmbeddingToSupabase` performs a plain insert keyed by
nothing, so re-ingesting the same content appends its chunk rows again: after
two ingestions the table holds the prior rows plus two copies of the chunk
rows, and the chunk count grows by twice the per-document chunk count instead
of staying equal. -/
theorem c6_reingest_duplicates (embed : String → List ℚ)
    (table : List InsertRow) (content : String) :
    ingestDocument embed (ingestDocument embed table content) content =
      table ++ ingestData embed content ++ ingestData embed content ∧
    (ingestDocument embed (ingestDocument embed table content) content).length =
      table.length + 2 * (ingestData embed content).length := by
  constructor
  · simp [ingestDocument, storeEmbeddingToSupabase]
  · simp [ingestDocument, storeEmbeddingToSupabase]
    omega

set_option maxRecDepth 100000 in
/-- C7 counterexample: a 1200-character document made of four blank-line
separated paragraphs is split into 4 chunks, not 5, and no pair of
consecutive chunks shares a 30-character overlap — the splitter cuts at
separators, so the claimed chunk layout does not hold for every
1200-character document. -/
theorem c7_counterexample :
    paragraphDoc1200.length = 1200 ∧
    (splitContent paragraphDoc1200).length ≠ 5 ∧
    consecutiveOverlapsOf30 (splitContent paragraphDoc1200) = false := by
  refine ⟨by decide, by decide, by decide⟩

/-- Helper: `dropWhile` is the identity on a list none of whose elements
satisfy the predicate. -/
theorem dropWhile_eq_self_of_false {p : Char → Bool} :
    ∀ {l : List Char}, (∀ x ∈ l, p x = false) → l.dropWhile p = l := by
  intro l h
  cases l with
  | nil => rfl
  | cons a t => simp [List.dropWhile, h a (List.mem_cons_self a t)]

/-- Helper: `jsTrim` is the identity on a string with no whitespace. -/
theorem jsTrim_of_no_whitespace (es : List Char)
    (h : ∀ c ∈ es, c.isWhitespace = false) :
    jsTrim (String.mk es) = String.mk es := by
  unfold jsTrim
  rw [show (String.mk es).toList = es from rfl]
  rw [dropWhile_eq_self_of_false h,
    dropWhile_eq_self_of_false (fun x hx => h x (List.mem_reverse.mp hx)),
    List.reverse_reverse]

/-- Helper: `String.intercalate.go` with the empty separator concatenates
singleton strings. -/
theorem intercalate_empty_sing_go (es : List Char) :
    ∀ acc : String,
      String.intercalate.go acc "" (es.map (fun c => String.mk [c])) =
        String.mk (acc.data ++ es) := by
  induction es with
  | nil =>
    intro acc
    simp only [List.map_nil, String.intercalate.go, List.append_nil]
  | cons c cs ih =>
    intro acc
    simp only [List.map_cons, String.intercalate.go, ih]
    congr 1
    simp [show ("" : String).data = [] from rfl]

/-- Helper: joining singleton strings with the empty separator rebuilds the
original character list. -/
theorem intercalate_empty_sing (es : List Char) :
    String.intercalate "" (es.map (fun c => String.mk [c])) = String.mk es := by
  cases es with
  | nil => rfl
  | cons c cs =>
    simp only [List.map_cons, String.intercalate, intercalate_empty_sing_go]
    rfl

/-- Helper: a singleton-character string is never empty. -/
theorem sing_ne_empty (c : Char) : String.mk [c] ≠ "" := by
  intro h
  have hd := congrArg String.data h
  simp at hd

/-- Helper: a string built from a non-empty character list is non-empty. -/
theorem mk_ne_empty {es : List Char} (h : es ≠ []) : String.mk es ≠ "" := by
  intro he
  have hd := congrArg String.data he
  simp at hd
  exact h hd

/-- Helper: `joinDocs` on singleton strings with empty separator returns the
concatenation, provided the list is non-empty and whitespace-free. -/
theorem joinDocs_sing (es : List Char) (hne : es ≠ [])
    (h : ∀ c ∈ es, c.isWhitespace = false) :
    joinDocs (es.map (fun c => String.mk [c])) "" = some (String.mk es) := by
  unfold joinDocs
  rw [intercalate_empty_sing, jsTrim_of_no_whitespace es h,
    if_neg (mk_ne_empty hne)]

/-- Helper: shrinking a full 300-character singleton accumulation keeps
exactly the last 30 characters. -/
theorem shrinkDoc_sing :
    ∀ es : List Char, 30 ≤ es.length →
      shrinkDoc 300 30 1 0 (es.map (fun c => String.mk [c])) es.length =
        ((es.drop (es.length - 30)).map (fun c => String.mk [c]), 30) := by
  intro es
  induction es with
  | nil => intro h; simp at h
  | cons e es' ih =>
    intro h
    simp only [List.map_cons, List.length_cons]
    by_cases h30 : es'.length + 1 = 30
    · rw [shrinkDoc]
      rw [if_neg (by omega)]
      rw [h30]
      simp
    · have hgt : 30 < es'.length + 1 := by
        simp only [List.length_cons] at h
        omega
      rw [shrinkDoc]
      rw [if_pos (Or.inl hgt)]
      have hlen : es'.length + 1 - (String.mk [e]).length = es'.length := by
        simp [String.length]
      rw [hlen]
      rw [ih (by omega)]
      have hdrop : (e :: es').drop (es'.length + 1 - 30) =
          es'.drop (es'.length - 30) := by
        have : es'.length + 1 - 30 = (es'.length - 30) + 1 := by omega
        rw [this]
        rfl
      rw [← hdrop]

/-- Helper: a substring whose first character is whitespace never occurs in a
whitespace-free character list. -/
theorem hasSub_false_of_ws_head (hd : Char) (tl : List Char)
    (hw : hd.isWhitespace = true) :
    ∀ hay : List Char, (∀ x ∈ hay, x.isWhitespace = false) →
      hasSub (hd :: tl) hay = false := by
  intro hay
  induction hay with
  | nil => intro _h; rfl
  | cons c rest ih =>
    intro h
    have hc : (hd == c) = false := by
      apply beq_eq_false_iff_ne.mpr
      intro he
      rw [he, h c (List.mem_cons_self c rest)] at hw
      exact Bool.false_ne_true hw
    have hrest := ih (fun x hx => h x (List.mem_cons_of_mem c hx))
    simp [hasSub, List.isPrefixOf, hc, hrest]

/-- Helper: on a whitespace-free document the recursive splitter falls
through the `"\n\n"`, `"\n"` and `" "` separators to the character level. -/
theorem splitContent_eq_mergeSplits_of_no_ws (doc : String)
    (h : ∀ c ∈ doc.toList, c.isWhitespace = false) :
    splitContent doc =
      mergeSplits 300 30 (doc.toList.map (fun c => String.mk [c])) "" := by
  have h1 : strContains doc "\n\n" = false := by
    unfold strContains
    exact hasSub_false_of_ws_head '\n' ['\n'] (by decide) doc.toList h
  have h2 : strContains doc "\n" = false := by
    unfold strContains
    exact hasSub_false_of_ws_head '\n' [] (by decide) doc.toList h
  have h3 : strContains doc " " = false := by
    unfold strContains
    exact hasSub_false_of_ws_head ' ' [] (by decide) doc.toList h
  show splitTextRec 300 30 defaultSeparators doc = _
  rw [defaultSeparators]
  rw [splitTextRec, if_neg (by decide), h1]
  simp only [Bool.false_eq_true, if_false]
  rw [splitTextRec, if_neg (by decide), h2]
  simp only [Bool.false_eq_true, if_false]
  rw [splitTextRec, if_neg (by decide), h3]
  simp only [Bool.false_eq_true, if_false]
  rw [splitTextRec, if_pos rfl]
  unfold splitOnSeparator
  simp only [if_pos rfl]
  congr 1
  apply List.filter_eq_self.mpr
  intro a ha
  obtain ⟨c, _hc, rfl⟩ := List.mem_map.mp ha
  exact decide_eq_true (sing_ne_empty c)

/-- Helper: the closed form of the merge loop over singleton splits with the
empty separator — chunks of 300 at stride 270. -/
theorem mergeLoop_sing_closed :
    ∀ (cs es : List Char), es.length ≤ 300 →
      (∀ c ∈ es, c.isWhitespace = false) →
      (∀ c ∈ cs, c.isWhitespace = false) →
      es ++ cs ≠ [] →
      mergeLoop 300 30 "" (cs.map (fun c => String.mk [c]))
          (es.map (fun c => String.mk [c])) es.length =
        (charChunks (es ++ cs)).map String.mk := by
  intro cs
  induction cs with
  | nil =>
    intro es hle hwes _hwcs hne
    rw [List.append_nil] at hne ⊢
    simp only [List.map_nil, mergeLoop]
    rw [joinDocs_sing es hne hwes]
    rw [charChunks, dif_pos hle]
    rfl
  | cons c ds ih =>
    intro es hle hwes hwcs hne
    have hwc : c.isWhitespace = false := hwcs c (List.mem_cons_self c ds)
    have hwds : ∀ x ∈ ds, x.isWhitespace = false :=
      fun x hx => hwcs x (List.mem_cons_of_mem c hx)
    simp only [List.map_cons, mergeLoop, List.length_map]
    by_cases h300 : es.length = 300
    · have hcond : es.length + (String.mk [c]).length + es.length * ("" : String).length > 300 ∧
          es.length > 0 := by
        constructor
        · simp [String.length, h300]
        · omega
      rw [if_pos hcond]
      have hne300 : es ≠ [] := by
        intro he
        rw [he] at h300
        simp at h300
      rw [joinDocs_sing es hne300 hwes]
      have hL1 : (String.mk [c]).length = 1 := rfl
      have hL0 : ("" : String).length = 0 := rfl
      rw [hL1, hL0]
      have h270 : es.length - 30 = 270 := by omega
      have hs := shrinkDoc_sing es (by omega)
      rw [h270] at hs
      rw [hs]
      dsimp only
      have hcur : (es.drop 270).map (fun x => String.mk [x]) ++ [String.mk [c]] =
          ((es.drop 270) ++ [c]).map (fun x => String.mk [x]) := by
        simp
      have hlen31 : (30 : Nat) + 1 = ((es.drop 270) ++ [c]).length := by
        simp [List.length_drop, h300]
      rw [hcur, hlen31]
      rw [ih ((es.drop 270) ++ [c])
        (by simp [List.length_drop, h300])
        (by
          intro x hx
          rcases List.mem_append.mp hx with hx1 | hx2
          · exact hwes x (List.mem_of_mem_drop hx1)
          · rw [List.mem_singleton.mp hx2]; exact hwc)
        hwds
        (by simp)]
      have hchunk : charChunks (es ++ c :: ds) =
          es :: charChunks (es.drop 270 ++ (c :: ds)) := by
        rw [charChunks]
        rw [dif_neg (by simp [List.length_append, h300])]
        congr 1
        · rw [← h300, List.take_left]
        · congr 1
          rw [List.drop_append_eq_append_drop]
          have : 270 - es.length = 0 := by omega
          rw [this, List.drop_zero]
      rw [hchunk]
      simp only [List.map_cons, List.singleton_append]
      simp
    · have hcond : ¬(es.length + (String.mk [c]).length + es.length * ("" : String).length > 300 ∧
          es.length > 0) := by
        simp only [String.length]
        intro hcon
        have h1 := hcon.1
        simp at h1
        omega
      rw [if_neg hcond]
      have hcur : es.map (fun x => String.mk [x]) ++ [String.mk [c]] =
          (es ++ [c]).map (fun x => String.mk [x]) := by
        simp
      have hlen : es.length + (String.mk [c]).length = (es ++ [c]).length := by
        simp [String.length]
      rw [hcur, hlen]
      rw [ih (es ++ [c])
        (by simp; omega)
        (by
          intro x hx
          rcases List.mem_append.mp hx with hx1 | hx2
          · exact hwes x hx1
          · rw [List.mem_singleton.mp hx2]; exact hwc)
        hwds
        (by simp)]
      congr 2
      simp

/-- Helper: complete closed form of `splitContent` on a non-empty
whitespace-free document. -/
theorem splitContent_no_ws (doc : String)
    (h : ∀ c ∈ doc.toList, c.isWhitespace = false) (hne : doc.toList ≠ []) :
    splitContent doc = (charChunks doc.toList).map String.mk := by
  rw [splitContent_eq_mergeSplits_of_no_ws doc h]
  unfold mergeSplits
  have hmain := mergeLoop_sing_closed doc.toList [] (by simp) (by simp) h
    (by simpa using hne)
  simpa using hmain

set_option maxRecDepth 100000 in
/-- Helper: the uniform document contains no whitespace characters. -/
theorem uniformDoc1200_no_ws : ∀ c ∈ uniformDoc1200.toList, c.isWhitespace = false := by
  intro c hc
  have hl : uniformDoc1200.toList =
      (List.range 1200).map (fun i => Char.ofNat (33 + i % 90)) := rfl
  rw [hl] at hc
  obtain ⟨i, _hi, rfl⟩ := List.mem_map.mp hc
  have hmod : i % 90 < 90 := Nat.mod_lt i (by omega)
  have hall : ∀ k < 90, (Char.ofNat (33 + k)).isWhitespace = false := by decide
  exact hall (i % 90) hmod

set_option maxRecDepth 100000 in
/-- C7 amended: for a 1200-character document containing no separator
characters (no blank line, newline or space — e.g. `uniformDoc1200`), chunk
size 300 and overlap 30 produce exactly 5 chunks, at positions 0, 270, 540,
810 and 1080 (so with chunk indices 0 through 4), and every pair of
consecutive chunks shares an exact 30-character overlap; documents whose
1200 characters contain separators can split differently (see the
counterexample). -/
theorem c7_separator_free_doc_five_chunks :
    uniformDoc1200.length = 1200 ∧
    splitContent uniformDoc1200 = uniformChunks ∧
    uniformChunks.length = 5 ∧
    consecutiveOverlapsOf30 uniformChunks = true := by
  refine ⟨by decide, ?_, by decide, by decide⟩
  rw [splitContent_no_ws uniformDoc1200 uniformDoc1200_no_ws (by decide)]
  rw [charChunks, dif_neg (by decide)]
  rw [charChunks, dif_neg (by decide)]
  rw [charChunks, dif_neg (by decide)]
  rw [charChunks, dif_neg (by decide)]
  rw [charChunks, dif_pos (by decide)]
  decide

/-- C8 counterexample: the module-level `chatMessages` array survives between
requests — with an LLM whose reply depends on the number of messages it is
shown, the same query submitted as the second request produces a different
answer than as the first request, because the first request's messages are
still in the module state. -/
theorem c8_counterexample :
    (documentSemanticSearch (Except.ok (fun _ => 0)) none [] lenLLM
        (documentSemanticSearch (Except.ok (fun _ => 0)) none [] lenLLM
          initialChatMessages "first question").2
        "second question").1 ≠
      (documentSemanticSearch (Except.ok (fun _ => 0)) none [] lenLLM
        initialChatMessages "second question").1 := by
  decide

/-- C8 amended: the query-handling core is stateful between requests: every
call of `getChatCompletions` sends the whole accumulated module-level
`chatMessages` array (plus the new user message) to the LLM and then appends
both the user message and the assistant reply to that array, so history is
mutated in place and each request's answer depends on all earlier requests. -/
theorem c8_chat_state_accumulates (llm : List ChatMsg → String)
    (chatMessages : List ChatMsg) (text query : String) :
    sentMessages chatMessages text query = chatMessages ++ [userMsg text query] ∧
    (getChatCompletions llm chatMessages text query).2 =
      chatMessages ++ [userMsg text query,
        ChatMsg.mk "assistant" (llm (chatMessages ++ [userMsg text query]))] := by
  constructor
  · rfl
  · simp [getChatCompletions]

/-- Helper for the agent loop: starting with `itersLeft` permitted tool
iterations after `calls` LLM calls already made, the loop makes at most
`itersLeft + 1` further calls and ends in `done` or `failed`. -/
theorem agentLoop_spec (respond : Nat → LLMResponse) (itersLeft : Nat) :
    ∀ calls, (agentLoop respond itersLeft calls).2 ≤ calls + itersLeft + 1 ∧
      ((∃ a, (agentLoop respond itersLeft calls).1 = AgentOutcome.done a) ∨
        (agentLoop respond itersLeft calls).1 = AgentOutcome.failed) := by
  induction itersLeft with
  | zero =>
    intro calls
    cases h : respond calls with
    | text a => simp [agentLoop, h]
    | toolCall t g => simp [agentLoop, h]
  | succ n ih =>
    intro calls
    cases h : respond calls with
    | text a => simp [agentLoop, h]
    | toolCall t g =>
      have hstep := ih (calls + 1)
      constructor
      · simp only [agentLoop, h]
        have h1 := hstep.1
        omega
      · simp only [agentLoop, h]
        exact hstep.2

/-- C9: for every sequence of LLM Service responses, one Agent Runtime
request with iteration cap `K` terminates in `Done` or `Failed` after at most
`K + 1` LLM Service calls. -/
theorem c9_agent_terminates_within_cap (K : Nat) (respond : Nat → LLMResponse) :
    (runAgent K respond).2 ≤ K + 1 ∧
    ((∃ a, (runAgent K respond).1 = AgentOutcome.done a) ∨
      (runAgent K respond).1 = AgentOutcome.failed) := by
  have h := agentLoop_spec respond K 0
  simpa [runAgent] using h

/-- C10: every row returned by the knowledge-query vector search
(`matchEmbedding`, whether the Supabase RPC succeeds or errors out to the
empty array) has similarity strictly greater than the hard-coded threshold
3/4 = 0.75; when no stored chunk scores above 0.75 the match list is empty
and the grounding context handed to the LLM is the empty string. -/
theorem c10_strict_threshold_cutoff (rpcError : Option String)
    (sim : RealEstateRow → ℚ) (table : List RealEstateRow) :
    (∀ m ∈ matchEmbedding rpcError sim table (3 / 4 : ℚ) 5,
      (3 / 4 : ℚ) < m.similarity) ∧
    ((∀ r ∈ table, sim r ≤ (3 / 4 : ℚ)) →
      matchEmbedding rpcError sim table (3 / 4 : ℚ) 5 = [] ∧
      matchContents (matchEmbedding rpcError sim table (3 / 4 : ℚ) 5) = "") := by
  cases rpcError with
  | some e =>
    constructor
    · intro m hm
      simp [matchEmbedding] at hm
    · intro _hall
      exact ⟨rfl, rfl⟩
  | none =>
    constructor
    · intro m hm
      simp only [matchEmbedding, match_real_estate] at hm
      have h1 := List.take_subset 5 _ hm
      have h2 := (List.perm_insertionSort simGE _).mem_iff.mp h1
      have h3 := (List.mem_filter.mp h2).2
      exact of_decide_eq_true h3
    · intro hall
      have hnil : ((table.map (fun r => MatchRow.mk r.id r.content (sim r))).filter
          (fun m => (3 / 4 : ℚ) < m.similarity)) = [] := by
        apply List.filter_eq_nil_iff.mpr
        intro m hm
        obtain ⟨r, hr, rfl⟩ := List.mem_map.mp hm
        simp only [decide_eq_true_eq]
        exact not_lt.mpr (hall r hr)
      constructor
      · simp [matchEmbedding, match_real_estate, hnil]
      · simp only [matchEmbedding, match_real_estate, hnil, matchContents]
        rfl

/-- C10 witness: with a successful RPC over a one-row table whose similarity
is 1/2 ≤ 3/4, the search returns no rows and the grounding context is
empty. -/
theorem c10_strict_threshold_cutoff_witness :
    matchEmbedding none (fun _ => (1 / 2 : ℚ)) [RealEstateRow.mk 1 "2 BHK in Wakad"]
        (3 / 4 : ℚ) 5 = [] ∧
    matchContents (matchEmbedding none (fun _ => (1 / 2 : ℚ))
        [RealEstateRow.mk 1 "2 BHK in Wakad"] (3 / 4 : ℚ) 5) = "" :=
  (c10_strict_threshold_cutoff none (fun _ => (1 / 2 : ℚ))
    [RealEstateRow.mk 1 "2 BHK in Wakad"]).2 (by intro r _hr; norm_num)

end RealEstateRAG
